import Mathlib

set_option maxHeartbeats 1000000
set_option linter.unusedVariables false

/-!
Shallow embedding of the code-judging engine of this repository
(`backend/src/services/simpleCodeExecutor.js` and the in-container
executor variant), together with theorems settling the specification
claims about it.

Effectful JavaScript is modelled by explicit state passing:

* the outcome of each `child_process` invocation (the resolved
  stdout/stderr of `execPromise`, or the thrown error object) is an
  oracle supplied through an `ExecEnv` record;
* filesystem side effects are recorded in an explicit trace of
  `FsEffect` events;
* a thrown JavaScript exception is an `Except.error` carrying the
  error message.
-/

/-- Result of one code execution: mirrors the object literals returned by
`executeCode` and the per-language executors
(`{success, output, error, executionTime}`). -/
structure ExecutionResult where
  success : Bool
  output : String
  error : String
  executionTime : Nat
  deriving Repr, DecidableEq

/-- One test case as consumed by `runTestCases`. -/
structure TestCase where
  input : String
  expectedOutput : String
  isHidden : Bool
  deriving Repr, DecidableEq

/-- One entry of the `results` array pushed by `runTestCases`. -/
structure TestResult where
  input : String
  expectedOutput : String
  actualOutput : String
  passed : Bool
  error : String
  executionTime : Nat
  isHidden : Bool
  deriving Repr, DecidableEq

/-- The `summary` object computed at the end of `runTestCases`. -/
structure TestRunSummary where
  total : Nat
  passed : Nat
  failed : Nat
  allPassed : Bool
  deriving Repr, DecidableEq

/-- The JavaScript error object thrown by a rejected `execPromise` call
(the fields the executors inspect: `killed`, `code`, `stdout`, `stderr`,
`message`). -/
structure ThrownErr where
  killed : Bool
  code : Option Int
  stdout : Option String
  stderr : Option String
  message : String
  deriving Repr, DecidableEq

/-- Outcome of one `execPromise` invocation, paired with the elapsed
wall-clock milliseconds observed at the moment the promise settles
(the executors compute `executionTime` from that instant). -/
inductive ProcResult where
  | ok (stdout stderr : String) (elapsed : Nat)
  | threw (e : ThrownErr) (elapsed : Nat)
  deriving Repr, DecidableEq

/-- Oracle describing the effectful environment of one `executeCode`
call: the random execution id, whether each filesystem call throws, the
outcome of the compile step (Java only; `none` = `javac` resolved) and
of the run step. `rmError` records a failure of the cleanup `fs.rm`. -/
structure ExecEnv where
  executionId : String
  mkdirError : Option String
  writeError : Option String
  compileOutcome : Option (ThrownErr × Nat)
  procOutcome : ProcResult
  rmError : Option String
  deriving Repr, DecidableEq

/-- Filesystem effects performed by `executeCode`, in order. -/
inductive FsEffect where
  | mkdirAttempt (dir : String)
  | writeAttempt (path : String)
  | runCmd (cmd : String)
  | rmAttempt (dir : String)
  deriving Repr, DecidableEq

/-- Result of an `executeCode` call: the returned value plus the ordered
trace of filesystem effects it performed. -/
structure ExecOut where
  result : ExecutionResult
  trace : List FsEffect
  deriving Repr, DecidableEq

/-- JavaScript `x?.trim() || dflt` on an optional string: the trimmed
string when present and nonempty after trimming, otherwise `dflt`
(an empty string is falsy in JavaScript). -/
def optTrimOr (s : Option String) (dflt : String) : String :=
  match s with
  | none => dflt
  | some v => if v.trim = "" then dflt else v.trim

/-- JavaScript `hay.includes(needle)` on character lists. -/
def hasSubstr : List Char → List Char → Bool
  | _, [] => true
  | [], _ :: _ => false
  | h :: t, n :: ns =>
    if (n :: ns).isPrefixOf (h :: t) then true else hasSubstr t (n :: ns)

/-- JavaScript `s.includes(sub)` on strings. -/
def hasSubstrStr (s sub : String) : Bool :=
  hasSubstr s.data sub.data

/-- Characters matched by the JavaScript regular-expression class `\s`. -/
def isJsSpace (c : Char) : Bool :=
  c == ' ' || c == '\t' || c == '\n' || c == '\r' ||
  c.val == 0x0b || c.val == 0x0c ||
  c.val == 0xa0 || c.val == 0x1680 ||
  (0x2000 ≤ c.val && c.val ≤ 0x200a) ||
  c.val == 0x2028 || c.val == 0x2029 || c.val == 0x202f ||
  c.val == 0x205f || c.val == 0x3000 || c.val == 0xfeff

/-- Characters matched by the JavaScript regular-expression class `\w`. -/
def isWordChar (c : Char) : Bool :=
  c.isAlphanum || c == '_'

/-- Consume an exact literal at the front of the input, failing if the
input does not start with it. -/
def dropLit : List Char → List Char → Option (List Char)
  | [], cs => some cs
  | _ :: _, [] => none
  | l :: ls, c :: cs => if c = l then dropLit ls cs else none

/-- Consume `\s+` greedily (at least one whitespace character). Because
no whitespace character can start the literal that follows in the
pattern, greedy matching without backtracking coincides with the
regular-expression semantics. -/
def dropSpaces1 (cs : List Char) : Option (List Char) :=
  match cs with
  | [] => none
  | c :: rest => if isJsSpace c then some (rest.dropWhile isJsSpace) else none

/-- Consume `(\w+)` greedily and return the captured word. -/
def takeWord1 (cs : List Char) : Option String :=
  let w := cs.takeWhile isWordChar
  if w.isEmpty then none else some (String.mk w)

/-- Try to match `public\s+class\s+(\w+)` starting exactly at the head
of the input, returning the captured class name. -/
def matchPublicClassAt (cs : List Char) : Option String := do
  let cs ← dropLit "public".data cs
  let cs ← dropSpaces1 cs
  let cs ← dropLit "class".data cs
  let cs ← dropSpaces1 cs
  takeWord1 cs

/-- Leftmost match of `public\s+class\s+(\w+)` in the input, as
`String.prototype.match` with a non-global regular expression finds it. -/
def findPublicClass : List Char → Option String
  | [] => none
  | c :: cs =>
    match matchPublicClassAt (c :: cs) with
    | some w => some w
    | none => findPublicClass cs

namespace SimpleCodeExecutor

/-- `const EXECUTION_TIMEOUT = 5000` from `simpleCodeExecutor.js`. -/
def EXECUTION_TIMEOUT : Nat := 5000

/-- `extractJavaClassName`: capture of the first `public class X` match,
defaulting to `Solution`. -/
def extractJavaClassName (code : String) : String :=
  match findPublicClass code.data with
  | some w => w
  | none => "Solution"

/-- The `catch (error)` block shared verbatim by the three per-language
executors: a killed child reports a timeout with
`executionTime = EXECUTION_TIMEOUT`; any other rejection reports the
trimmed captured stderr (falling back to the error message) with the
measured elapsed time. -/
def catchResult (e : ThrownErr) (elapsed : Nat) : ExecutionResult :=
  if e.killed then
    { success := false, output := "", error := "Execution timed out",
      executionTime := EXECUTION_TIMEOUT }
  else
    { success := false, output := optTrimOr e.stdout "",
      error := optTrimOr e.stderr e.message, executionTime := elapsed }

/-- `executeJavaScript`: write `solution.js` (a write failure propagates
as an exception), run `node`, and classify the outcome. -/
def executeJavaScript (env : ExecEnv) (code input executionDir : String) :
    Except String ExecutionResult × List FsEffect :=
  let filePath := executionDir ++ "/solution.js"
  match env.writeError with
  | some m => (Except.error m, [FsEffect.writeAttempt filePath])
  | none =>
    let t := [FsEffect.writeAttempt filePath, FsEffect.runCmd ("node " ++ filePath)]
    match env.procOutcome with
    | ProcResult.ok stdout stderr elapsed =>
      (Except.ok { success := stderr == "", output := stdout.trim,
                   error := stderr.trim, executionTime := elapsed }, t)
    | ProcResult.threw e elapsed => (Except.ok (catchResult e elapsed), t)

/-- `executePython`: write `solution.py`, run `python3`, classify. -/
def executePython (env : ExecEnv) (code input executionDir : String) :
    Except String ExecutionResult × List FsEffect :=
  let filePath := executionDir ++ "/solution.py"
  match env.writeError with
  | some m => (Except.error m, [FsEffect.writeAttempt filePath])
  | none =>
    let t := [FsEffect.writeAttempt filePath, FsEffect.runCmd ("python3 " ++ filePath)]
    match env.procOutcome with
    | ProcResult.ok stdout stderr elapsed =>
      (Except.ok { success := stderr == "", output := stdout.trim,
                   error := stderr.trim, executionTime := elapsed }, t)
    | ProcResult.threw e elapsed => (Except.ok (catchResult e elapsed), t)

/-- `executeJava`: write `<ClassName>.java`, compile with `javac` (a
rejected compile promise falls into the shared catch block), then run
`java <ClassName>` and classify. -/
def executeJava (env : ExecEnv) (code input executionDir : String) :
    Except String ExecutionResult × List FsEffect :=
  let className := extractJavaClassName code
  let fileName := className ++ ".java"
  let filePath := executionDir ++ "/" ++ fileName
  match env.writeError with
  | some m => (Except.error m, [FsEffect.writeAttempt filePath])
  | none =>
    match env.compileOutcome with
    | some (e, elapsed) =>
      (Except.ok (catchResult e elapsed),
       [FsEffect.writeAttempt filePath, FsEffect.runCmd ("javac " ++ fileName)])
    | none =>
      let t := [FsEffect.writeAttempt filePath, FsEffect.runCmd ("javac " ++ fileName),
                FsEffect.runCmd ("java " ++ className)]
      match env.procOutcome with
      | ProcResult.ok stdout stderr elapsed =>
        (Except.ok { success := stderr == "", output := stdout.trim,
                     error := stderr.trim, executionTime := elapsed }, t)
      | ProcResult.threw e elapsed => (Except.ok (catchResult e elapsed), t)

/-- The language strings recognized by the `switch` in `executeCode`. -/
def supportedLanguages : List String := ["javascript", "python", "java"]

/-- The `switch (language)` of `executeCode`: select the per-language
executor, or throw `Unsupported language: ...` on an unrecognized
value. -/
def dispatch (env : ExecEnv) (code language input executionDir : String) :
    Except String ExecutionResult × List FsEffect :=
  match language with
  | "javascript" => executeJavaScript env code input executionDir
  | "python" => executePython env code input executionDir
  | "java" => executeJava env code input executionDir
  | _ => (Except.error ("Unsupported language: " ++ language), [])

/-- `executeCode`: create the per-execution workspace directory, dispatch
on the language, convert any propagated exception into
`{success:false, output:"", error:message, executionTime:0}` in the
`catch`, and always attempt the workspace removal in the `finally`
(whose own failure, `env.rmError`, is swallowed by the nested
try/catch around `fs.rm`). -/
def executeCode (env : ExecEnv) (code language input : String) : ExecOut :=
  let executionDir := "temp/" ++ env.executionId
  match env.mkdirError with
  | some m =>
    { result := { success := false, output := "", error := m, executionTime := 0 },
      trace := [FsEffect.mkdirAttempt executionDir, FsEffect.rmAttempt executionDir] }
  | none =>
    let d := dispatch env code language input executionDir
    let result : ExecutionResult :=
      match d.1 with
      | Except.ok r => r
      | Except.error m =>
        { success := false, output := "", error := m, executionTime := 0 }
    { result := result,
      trace := FsEffect.mkdirAttempt executionDir ::
        (d.2 ++ [FsEffect.rmAttempt executionDir]) }

/-- The `TestResult` pushed by one iteration of the `runTestCases` loop:
`passed` is `result.success && result.output.trim() ===
testCase.expectedOutput.trim()`. -/
def mkTestResult (result : ExecutionResult) (testCase : TestCase) : TestResult :=
  { input := testCase.input, expectedOutput := testCase.expectedOutput,
    actualOutput := result.output,
    passed := result.success && (result.output.trim == testCase.expectedOutput.trim),
    error := result.error, executionTime := result.executionTime,
    isHidden := testCase.isHidden }

/-- The `for` loop of `runTestCases`. The oracle `exec i input` gives
the `ExecutionResult` of the i-th `executeCode` call; the recursive call
shifts the oracle by one. After pushing a result the loop `break`s when
`result.success` is false. -/
def runTestCasesLoop (exec : Nat → String → ExecutionResult) :
    List TestCase → List TestResult
  | [] => []
  | testCase :: rest =>
    let result := exec 0 testCase.input
    let tr := mkTestResult result testCase
    if result.success then
      tr :: runTestCasesLoop (fun j => exec (j + 1)) rest
    else
      [tr]

/-- `runTestCases`: run the loop, then derive the summary from the full
requested list length and the count of passed results. -/
def runTestCases (exec : Nat → String → ExecutionResult)
    (testCases : List TestCase) : List TestResult × TestRunSummary :=
  let results := runTestCasesLoop exec testCases
  let totalTests := testCases.length
  let passedTests := (results.filter (fun r => r.passed)).length
  (results,
   { total := totalTests, passed := passedTests,
     failed := totalTests - passedTests,
     allPassed := passedTests == totalTests })

end SimpleCodeExecutor

namespace InContainerCodeExecutor

/-- The in-container variant of the shared catch block: the timeout
branch additionally recognizes exit code 124 of the `timeout` wrapper,
and the timeout is configurable. -/
def catchResult (timeout : Nat) (e : ThrownErr) (elapsed : Nat) : ExecutionResult :=
  if e.killed || e.code == some 124 then
    { success := false, output := "", error := "Execution timed out",
      executionTime := timeout }
  else
    { success := false, output := optTrimOr e.stdout "",
      error := optTrimOr e.stderr e.message, executionTime := elapsed }

/-- `InContainerCodeExecutor.executeJavaScript`: same shape as the
simple executor, but on a resolved promise `success` is
`stderr.length === 0 || !stderr.includes("Error")`. The trace is not
modelled for this variant; `env.procOutcome` covers any exception
thrown inside the try block. -/
def executeJavaScript (timeout : Nat) (env : ExecEnv)
    (code input executionDir : String) : Except String ExecutionResult :=
  match env.writeError with
  | some m => Except.error m
  | none =>
    match env.procOutcome with
    | ProcResult.ok stdout stderr elapsed =>
      Except.ok { success := stderr.length == 0 || !(hasSubstrStr stderr "Error"),
                  output := stdout.trim, error := stderr.trim,
                  executionTime := elapsed }
    | ProcResult.threw e elapsed => Except.ok (catchResult timeout e elapsed)

end InContainerCodeExecutor

/-- The acceptance decision of the submission controller: a submission
is accepted exactly when `summary.allPassed` holds. -/
def submitAccepted (summary : TestRunSummary) : Bool :=
  summary.allPassed

/-- Oracle for the C1 witness: the call at index 1 is an infra failure,
all others succeed. -/
def execC1 : Nat → String → ExecutionResult := fun i _ =>
  if i = 1 then
    { success := false, output := "", error := "SyntaxError", executionTime := 0 }
  else
    { success := true, output := "1", error := "", executionTime := 2 }

/-- Test cases for the C1 witness. -/
def tcsC1 : List TestCase :=
  [{ input := "a", expectedOutput := "1", isHidden := false },
   { input := "b", expectedOutput := "2", isHidden := false },
   { input := "c", expectedOutput := "3", isHidden := true }]

/-- Oracle for the C2 witness: every execution succeeds but prints `x`,
so the second case is a wrong answer. -/
def execC2 : Nat → String → ExecutionResult := fun _ _ =>
  { success := true, output := "x", error := "", executionTime := 1 }

/-- Test cases for the C2 witness: the second one expects `y` and fails
as a wrong answer. -/
def tcsC2 : List TestCase :=
  [{ input := "a", expectedOutput := "x", isHidden := false },
   { input := "b", expectedOutput := "y", isHidden := false }]

/-- Oracle for the C3 witness: outputs ` 42 ` with surrounding spaces,
so only the trimmed comparison makes it pass. -/
def execC3 : Nat → String → ExecutionResult := fun _ _ =>
  { success := true, output := " 42 ", error := "", executionTime := 1 }

/-- Test case for the C3 witness. -/
def tcsC3 : List TestCase :=
  [{ input := "n", expectedOutput := "42", isHidden := false }]

/-- Concrete environment in which every effect succeeds. -/
def envC4 : ExecEnv :=
  { executionId := "exec1", mkdirError := none, writeError := none,
    compileOutcome := none, procOutcome := ProcResult.ok "" "" 0,
    rmError := none }

/-- The thrown error object of a timed-out child process. -/
def thrownKilled : ThrownErr :=
  { killed := true, code := none, stdout := none, stderr := none,
    message := "Command failed" }

/-- Environment in which the run step times out. -/
def envC5 : ExecEnv :=
  { executionId := "t", mkdirError := none, writeError := none,
    compileOutcome := none,
    procOutcome := ProcResult.threw thrownKilled 5001, rmError := none }

/-- The thrown error object of a failed `javac` invocation. -/
def thrownCompile : ThrownErr :=
  { killed := false, code := some 2, stdout := none,
    stderr := some "Main.java:1: error: expected ;",
    message := "Command failed: javac Main.java" }

/-- Environment in which the Java compile step fails after 800 ms. -/
def envC6 : ExecEnv :=
  { executionId := "exec6", mkdirError := none, writeError := none,
    compileOutcome := some (thrownCompile, 800),
    procOutcome := ProcResult.ok "" "" 0, rmError := none }

/-- Environment in which workspace creation fails. -/
def envC6a : ExecEnv :=
  { executionId := "a", mkdirError := some "EACCES", writeError := none,
    compileOutcome := none, procOutcome := ProcResult.ok "" "" 0,
    rmError := none }

/-- Environment in which the source-file write fails. -/
def envC6b : ExecEnv :=
  { executionId := "b", mkdirError := none, writeError := some "EPERM",
    compileOutcome := none, procOutcome := ProcResult.ok "" "" 0,
    rmError := none }

/-- Environment for the C8 Java scenario: compile and run both resolve. -/
def envJava8 : ExecEnv :=
  { executionId := "j", mkdirError := none, writeError := none,
    compileOutcome := none, procOutcome := ProcResult.ok "" "" 1,
    rmError := none }

/-- Environment with a normally-exiting run producing a warning on
standard error. -/
def envC9 : ExecEnv :=
  { executionId := "n", mkdirError := none, writeError := none,
    compileOutcome := none,
    procOutcome := ProcResult.ok " 7 \n" "DeprecationWarning" 3,
    rmError := none }

open SimpleCodeExecutor

/-- If every call up to index `k` succeeds and the call at index `k`
fails, the loop produces exactly `k + 1` results. -/
theorem runTestCasesLoop_length_of_fail :
    ∀ (tcs : List TestCase) (exec : Nat → String → ExecutionResult) (k : Nat)
      (hk : k < tcs.length),
      (∀ j (hj : j < k),
        (exec j (tcs.get ⟨j, Nat.lt_trans hj hk⟩).input).success = true) →
      (exec k (tcs.get ⟨k, hk⟩).input).success = false →
      (runTestCasesLoop exec tcs).length = k + 1 := by
  intro tcs
  induction tcs with
  | nil => intro exec k hk; exact absurd hk (Nat.not_lt_zero k)
  | cons tc rest ih =>
    intro exec k hk hpre hfail
    cases k with
    | zero =>
      have h0 : (exec 0 tc.input).success = false := hfail
      simp [runTestCasesLoop, h0]
    | succ k =>
      have h0 : (exec 0 tc.input).success = true := hpre 0 (Nat.succ_pos k)
      have hk' : k < rest.length := Nat.lt_of_succ_lt_succ hk
      have htail : (runTestCasesLoop (fun j => exec (j + 1)) rest).length = k + 1 :=
        ih (fun j => exec (j + 1)) k hk'
          (fun j hj => hpre (j + 1) (Nat.succ_lt_succ hj)) hfail
      simp [runTestCasesLoop, h0, htail]

/-- If every call succeeds, the loop produces one result per test case. -/
theorem runTestCasesLoop_length_all :
    ∀ (tcs : List TestCase) (exec : Nat → String → ExecutionResult),
      (∀ i (hi : i < tcs.length),
        (exec i (tcs.get ⟨i, hi⟩).input).success = true) →
      (runTestCasesLoop exec tcs).length = tcs.length := by
  intro tcs
  induction tcs with
  | nil => intro exec h; rfl
  | cons tc rest ih =>
    intro exec h
    have h0 : (exec 0 tc.input).success = true := h 0 (Nat.succ_pos rest.length)
    have htail : (runTestCasesLoop (fun j => exec (j + 1)) rest).length = rest.length :=
      ih (fun j => exec (j + 1)) (fun i hi => h (i + 1) (Nat.succ_lt_succ hi))
    simp [runTestCasesLoop, h0, htail]

/-- Every entry of the loop's output is the `TestResult` built from the
corresponding oracle call and test case. -/
theorem runTestCasesLoop_get :
    ∀ (tcs : List TestCase) (exec : Nat → String → ExecutionResult) (i : Nat)
      (h : i < (runTestCasesLoop exec tcs).length),
      ∃ h2 : i < tcs.length,
        (runTestCasesLoop exec tcs).get ⟨i, h⟩ =
          mkTestResult (exec i (tcs.get ⟨i, h2⟩).input) (tcs.get ⟨i, h2⟩) := by
  intro tcs
  induction tcs with
  | nil =>
    intro exec i h
    simp [runTestCasesLoop] at h
  | cons tc rest ih =>
    intro exec i h
    by_cases hs : (exec 0 tc.input).success = true
    · cases i with
      | zero => exact ⟨Nat.succ_pos rest.length, by simp [runTestCasesLoop, hs, mkTestResult]⟩
      | succ j =>
        have h' : j < (runTestCasesLoop (fun j => exec (j + 1)) rest).length := by
          have := h
          simp only [runTestCasesLoop, hs, if_true, List.length_cons] at this
          exact Nat.lt_of_succ_lt_succ this
        obtain ⟨h2, he⟩ := ih (fun j => exec (j + 1)) j h'
        refine ⟨Nat.succ_lt_succ h2, ?_⟩
        have hstep :
            (runTestCasesLoop exec (tc :: rest)).get ⟨j + 1, h⟩ =
              (runTestCasesLoop (fun j => exec (j + 1)) rest).get ⟨j, h'⟩ := by
          simp [runTestCasesLoop, hs]
        rw [hstep, he]
        rfl
    · have hs' : (exec 0 tc.input).success = false := Bool.eq_false_iff.mpr hs
      cases i with
      | zero => exact ⟨Nat.succ_pos rest.length, by simp [runTestCasesLoop, hs', mkTestResult]⟩
      | succ j =>
        exfalso
        have := h
        simp [runTestCasesLoop, hs'] at this

/-- C1: when the call at index `k` (0-based) is the first to return an
execution with `success = false`, `runTestCases` stops after it: the
results list has exactly `k + 1` entries, while `summary.total` is the
length of the full input list and `summary.failed` is that length minus
the number of passed results among the executed prefix. -/
theorem runTestCases_failFast (exec : Nat → String → ExecutionResult)
    (tcs : List TestCase) (k : Nat) (hk : k < tcs.length)
    (hpre : ∀ j (hj : j < k),
      (exec j (tcs.get ⟨j, Nat.lt_trans hj hk⟩).input).success = true)
    (hfail : (exec k (tcs.get ⟨k, hk⟩).input).success = false) :
    (runTestCases exec tcs).1.length = k + 1 ∧
    (runTestCases exec tcs).2.total = tcs.length ∧
    (runTestCases exec tcs).2.failed =
      tcs.length - ((runTestCases exec tcs).1.filter (fun r => r.passed)).length := by
  refine ⟨?_, rfl, rfl⟩
  exact runTestCasesLoop_length_of_fail tcs exec k hk hpre hfail

/-- Witness for C1 at a concrete three-case run failing at index 1. -/
theorem runTestCases_failFast_witness :
    (runTestCases execC1 tcsC1).1.length = 1 + 1 ∧
    (runTestCases execC1 tcsC1).2.total = tcsC1.length ∧
    (runTestCases execC1 tcsC1).2.failed =
      tcsC1.length - ((runTestCases execC1 tcsC1).1.filter (fun r => r.passed)).length :=
  runTestCases_failFast execC1 tcsC1 1 (by decide)
    (fun j hj => by
      have hj0 : j = 0 := Nat.lt_one_iff.mp hj
      subst hj0
      rfl)
    (by decide)

/-- C2: when every execution returns `success = true` (any failures are
wrong-answer mismatches only), all test cases are evaluated and the
results list has exactly one entry per input case. -/
theorem runTestCases_allExecuted (exec : Nat → String → ExecutionResult)
    (tcs : List TestCase)
    (h : ∀ i (hi : i < tcs.length),
      (exec i (tcs.get ⟨i, hi⟩).input).success = true) :
    (runTestCases exec tcs).1.length = tcs.length :=
  runTestCasesLoop_length_all tcs exec h

/-- Witness for C2 at a concrete two-case run with one wrong answer. -/
theorem runTestCases_allExecuted_witness :
    (runTestCases execC2 tcsC2).1.length = tcsC2.length :=
  runTestCases_allExecuted execC2 tcsC2 (fun i hi => rfl)

/-- C3: each produced `TestResult` has `passed = true` exactly when the
corresponding execution succeeded and its trimmed actual output equals
the trimmed expected output. -/
theorem runTestCases_passed_iff (exec : Nat → String → ExecutionResult)
    (tcs : List TestCase) (i : Nat)
    (h : i < (runTestCases exec tcs).1.length) :
    ∃ h2 : i < tcs.length,
      (((runTestCases exec tcs).1.get ⟨i, h⟩).passed = true ↔
        ((exec i (tcs.get ⟨i, h2⟩).input).success = true ∧
         ((runTestCases exec tcs).1.get ⟨i, h⟩).actualOutput.trim =
           ((runTestCases exec tcs).1.get ⟨i, h⟩).expectedOutput.trim)) := by
  obtain ⟨h2, he⟩ := runTestCasesLoop_get tcs exec i h
  refine ⟨h2, ?_⟩
  show ((runTestCasesLoop exec tcs).get ⟨i, h⟩).passed = true ↔
    ((exec i (tcs.get ⟨i, h2⟩).input).success = true ∧
     ((runTestCasesLoop exec tcs).get ⟨i, h⟩).actualOutput.trim =
       ((runTestCasesLoop exec tcs).get ⟨i, h⟩).expectedOutput.trim)
  rw [he]
  simp [mkTestResult, Bool.and_eq_true, beq_iff_eq]

/-- Witness for C3 at a concrete run whose output needs trimming. -/
theorem runTestCases_passed_iff_witness :
    ∃ h2 : 0 < tcsC3.length,
      (((runTestCases execC3 tcsC3).1.get ⟨0, by decide⟩).passed = true ↔
        ((execC3 0 (tcsC3.get ⟨0, h2⟩).input).success = true ∧
         ((runTestCases execC3 tcsC3).1.get ⟨0, by decide⟩).actualOutput.trim =
           ((runTestCases execC3 tcsC3).1.get ⟨0, by decide⟩).expectedOutput.trim)) :=
  runTestCases_passed_iff execC3 tcsC3 0 (by decide)

/-- On an unrecognized language the `switch` falls through to the
`default` branch, which throws before any file is written or process
is run. -/
theorem dispatch_unsupported (env : ExecEnv) (code language input dir : String)
    (hl : language ∉ supportedLanguages) :
    dispatch env code language input dir =
      (Except.error ("Unsupported language: " ++ language), []) := by
  simp only [supportedLanguages, List.mem_cons, List.not_mem_nil, or_false, not_or] at hl
  obtain ⟨h1, h2, h3⟩ := hl
  unfold dispatch
  split <;> simp_all

/-- Counterexample to C4: with language `ruby`, `executeCode` does
return the unsupported-language failure, but only after the workspace
directory creation has been performed — the first recorded effect of
the call is the `mkdir` of the workspace, so the failure is not
atomically before all workspace I/O. -/
theorem executeCode_unsupported_counterexample :
    (executeCode envC4 "puts 1" "ruby" "").result =
      { success := false, output := "",
        error := "Unsupported language: ruby", executionTime := 0 } ∧
    (executeCode envC4 "puts 1" "ruby" "").trace =
      [FsEffect.mkdirAttempt "temp/exec1", FsEffect.rmAttempt "temp/exec1"] ∧
    FsEffect.mkdirAttempt "temp/exec1" ∈ (executeCode envC4 "puts 1" "ruby" "").trace := by
  refine ⟨by decide, by decide, ?_⟩
  decide

/-- C4 (amended): for every language outside the recognized set,
`executeCode` returns the unsupported-language failure result
`{success:false, output:"", error:"Unsupported language: ...",
executionTime:0}` without writing any file or running any process; the
workspace directory creation, however, does occur before the check
(and its removal after), as the trace shows. -/
theorem executeCode_unsupported_after_mkdir (env : ExecEnv)
    (code language input : String)
    (hm : env.mkdirError = none)
    (hl : language ∉ supportedLanguages) :
    (executeCode env code language input).result =
      { success := false, output := "",
        error := "Unsupported language: " ++ language, executionTime := 0 } ∧
    (executeCode env code language input).trace =
      [FsEffect.mkdirAttempt ("temp/" ++ env.executionId),
       FsEffect.rmAttempt ("temp/" ++ env.executionId)] := by
  have hd := dispatch_unsupported env code language input
    ("temp/" ++ env.executionId) hl
  constructor
  · simp [executeCode, hm, hd]
  · simp [executeCode, hm, hd]

/-- Witness for the amended C4 at the concrete language `ruby`. -/
theorem executeCode_unsupported_after_mkdir_witness :
    (executeCode envC4 "puts 2" "ruby" "x").result =
      { success := false, output := "",
        error := "Unsupported language: " ++ "ruby", executionTime := 0 } ∧
    (executeCode envC4 "puts 2" "ruby" "x").trace =
      [FsEffect.mkdirAttempt ("temp/" ++ envC4.executionId),
       FsEffect.rmAttempt ("temp/" ++ envC4.executionId)] :=
  executeCode_unsupported_after_mkdir envC4 "puts 2" "ruby" "x" rfl (by decide)

/-- C5: when the child process is killed (the `error.killed` flag the
executors test after a timeout expiry), each per-language executor of
the simple executor returns `{success:false, output:"",
error:"Execution timed out", executionTime:EXECUTION_TIMEOUT}` with
`EXECUTION_TIMEOUT = 5000`, and the in-container variant returns the
same with its configured timeout value. -/
theorem execute_timeout_result (env : ExecEnv) (code input dir : String)
    (e : ThrownErr) (el timeout : Nat)
    (hw : env.writeError = none)
    (hp : env.procOutcome = ProcResult.threw e el)
    (hk : e.killed = true)
    (hc : env.compileOutcome = none) :
    EXECUTION_TIMEOUT = 5000 ∧
    (executeJavaScript env code input dir).1 =
      Except.ok { success := false, output := "", error := "Execution timed out",
                  executionTime := EXECUTION_TIMEOUT } ∧
    (executePython env code input dir).1 =
      Except.ok { success := false, output := "", error := "Execution timed out",
                  executionTime := EXECUTION_TIMEOUT } ∧
    (executeJava env code input dir).1 =
      Except.ok { success := false, output := "", error := "Execution timed out",
                  executionTime := EXECUTION_TIMEOUT } ∧
    InContainerCodeExecutor.executeJavaScript timeout env code input dir =
      Except.ok { success := false, output := "", error := "Execution timed out",
                  executionTime := timeout } := by
  refine ⟨rfl, ?_, ?_, ?_, ?_⟩ <;>
    simp [executeJavaScript, executePython, executeJava,
      InContainerCodeExecutor.executeJavaScript, hw, hp, hk, hc,
      catchResult, InContainerCodeExecutor.catchResult]

/-- Witness for C5 at a concrete timed-out run (in-container timeout
configured to 7000). -/
theorem execute_timeout_result_witness :
    EXECUTION_TIMEOUT = 5000 ∧
    (executeJavaScript envC5 "while(1);" "" "temp/t").1 =
      Except.ok { success := false, output := "", error := "Execution timed out",
                  executionTime := EXECUTION_TIMEOUT } ∧
    (executePython envC5 "while(1);" "" "temp/t").1 =
      Except.ok { success := false, output := "", error := "Execution timed out",
                  executionTime := EXECUTION_TIMEOUT } ∧
    (executeJava envC5 "while(1);" "" "temp/t").1 =
      Except.ok { success := false, output := "", error := "Execution timed out",
                  executionTime := EXECUTION_TIMEOUT } ∧
    InContainerCodeExecutor.executeJavaScript 7000 envC5 "while(1);" "" "temp/t" =
      Except.ok { success := false, output := "", error := "Execution timed out",
                  executionTime := 7000 } :=
  execute_timeout_result envC5 "while(1);" "" "temp/t" thrownKilled 5001 7000
    rfl rfl rfl rfl

/-- Counterexample to C6: a Java compile failure is caught by the inner
catch of `executeJava`, not by the outer catch of `executeCode`, so the
returned result carries the measured elapsed time (800 here, not 0) and
the compiler's captured stderr (not the exception's message). -/
theorem executeCode_exception_counterexample :
    (executeCode envC6 "public class Main" "java" "").result.success = false ∧
    (executeCode envC6 "public class Main" "java" "").result.executionTime = 800 ∧
    ¬ ((executeCode envC6 "public class Main" "java" "").result.executionTime = 0 ∧
       (executeCode envC6 "public class Main" "java" "").result.error =
         "Command failed: javac Main.java") := by
  refine ⟨by decide, by decide, ?_⟩
  intro h
  exact absurd h.1 (by decide)

/-- C6 (amended): `executeCode` always returns a result value; the
exceptions that reach its own catch — workspace creation failure,
source-file write failure, unsupported language — are converted to
`{success:false, output:"", error:message, executionTime:0}`, while a
compile (or spawn/run) failure is caught earlier, inside the
per-language executor, and yields `executionTime` equal to the measured
elapsed time and an error message preferring the trimmed captured
stderr over the exception's message. -/
theorem executeCode_exception_conversion (env : ExecEnv)
    (code language input : String) :
    (∀ m, env.mkdirError = some m →
      (executeCode env code language input).result =
        { success := false, output := "", error := m, executionTime := 0 }) ∧
    (∀ m, env.mkdirError = none → env.writeError = some m →
      language ∈ supportedLanguages →
      (executeCode env code language input).result =
        { success := false, output := "", error := m, executionTime := 0 }) ∧
    (env.mkdirError = none → language ∉ supportedLanguages →
      (executeCode env code language input).result =
        { success := false, output := "",
          error := "Unsupported language: " ++ language, executionTime := 0 }) ∧
    (∀ e el, env.mkdirError = none → env.writeError = none →
      env.compileOutcome = some (e, el) → e.killed = false →
      (executeCode env code "java" input).result =
        { success := false, output := optTrimOr e.stdout "",
          error := optTrimOr e.stderr e.message, executionTime := el }) := by
  refine ⟨?_, ?_, ?_, ?_⟩
  · intro m hm
    simp [executeCode, hm]
  · intro m hm hw hlang
    simp only [supportedLanguages, List.mem_cons, List.not_mem_nil, or_false] at hlang
    rcases hlang with h | h | h <;> subst h <;>
      simp [executeCode, dispatch, executeJavaScript, executePython, executeJava,
        hm, hw]
  · intro hm hl
    have hd := dispatch_unsupported env code language input
      ("temp/" ++ env.executionId) hl
    simp [executeCode, hm, hd]
  · intro e el hm hw hc hk
    simp [executeCode, dispatch, executeJava, hm, hw, hc, catchResult, hk]

/-- Witness for the amended C6 at concrete environments exercising all
four conversion paths. -/
theorem executeCode_exception_conversion_witness :
    (executeCode envC6a "x" "python" "").result =
      { success := false, output := "", error := "EACCES", executionTime := 0 } ∧
    (executeCode envC6b "x" "python" "").result =
      { success := false, output := "", error := "EPERM", executionTime := 0 } ∧
    (executeCode envC4 "x" "ruby" "").result =
      { success := false, output := "",
        error := "Unsupported language: " ++ "ruby", executionTime := 0 } ∧
    (executeCode envC6 "public class Main" "java" "").result =
      { success := false, output := optTrimOr thrownCompile.stdout "",
        error := optTrimOr thrownCompile.stderr thrownCompile.message,
        executionTime := 800 } :=
  ⟨(executeCode_exception_conversion envC6a "x" "python" "").1 "EACCES" rfl,
   (executeCode_exception_conversion envC6b "x" "python" "").2.1 "EPERM" rfl rfl
     (by decide),
   (executeCode_exception_conversion envC4 "x" "ruby" "").2.2.1 rfl (by decide),
   (executeCode_exception_conversion envC6 "public class Main" "java" "").2.2.2
     thrownCompile 800 rfl rfl rfl rfl⟩

/-- C7: on every exit path of `executeCode` — success, logical failure,
timeout, exception, unsupported language — the last recorded effect is
the removal attempt of the per-execution workspace directory, and a
failure of that removal (`env.rmError`) never changes the returned
value: the caller receives the same `ExecutionResult` whether or not
cleanup failed. -/
theorem executeCode_cleanup_always (env : ExecEnv) (code language input : String) :
    (∃ t, (executeCode env code language input).trace =
      t ++ [FsEffect.rmAttempt ("temp/" ++ env.executionId)]) ∧
    executeCode env code language input =
      executeCode { env with rmError := none } code language input := by
  obtain ⟨id, mk, we, co, po, rm⟩ := env
  constructor
  · cases mk with
    | some m => exact ⟨[FsEffect.mkdirAttempt ("temp/" ++ id)], rfl⟩
    | none =>
      exact ⟨FsEffect.mkdirAttempt ("temp/" ++ id) ::
        (dispatch ⟨id, none, we, co, po, rm⟩ code language input
          ("temp/" ++ id)).2, rfl⟩
  · rfl

/-- C8: Java class-name extraction returns the capture of the first
`public class X` match and falls back to `Solution` when there is none;
for a source defining `public class Main` it yields `Main`, and
`executeJava` then writes `Main.java`, compiles `Main.java` and runs
class `Main` (not `Solution`). -/
theorem extractJavaClassName_spec :
    (∀ code : String, findPublicClass code.data = none →
      extractJavaClassName code = "Solution") ∧
    (∀ code w : String, findPublicClass code.data = some w →
      extractJavaClassName code = w) ∧
    extractJavaClassName "public class Main {}" = "Main" ∧
    (executeJava envJava8 "public class Main {}" "" "temp/j").2 =
      [FsEffect.writeAttempt "temp/j/Main.java",
       FsEffect.runCmd "javac Main.java",
       FsEffect.runCmd "java Main"] := by
  refine ⟨?_, ?_, ?_, ?_⟩
  · intro code h
    simp [extractJavaClassName, h]
  · intro code w h
    simp [extractJavaClassName, h]
  · decide
  · decide

/-- Witness for C8: a source without the pattern falls back to
`Solution`; one with `public class Foo` yields `Foo`. -/
theorem extractJavaClassName_spec_witness :
    extractJavaClassName "int x = 1;" = "Solution" ∧
    extractJavaClassName "public class Foo extends Bar" = "Foo" :=
  ⟨extractJavaClassName_spec.1 "int x = 1;" (by decide),
   extractJavaClassName_spec.2.1 "public class Foo extends Bar" "Foo" (by decide)⟩

/-- C9: on a normal exit (the run promise resolves), the simple
executor's result has `success = true` exactly when the captured
standard error is empty, the in-container variant has `success = true`
exactly when standard error is empty or does not contain the substring
`Error`, and in both the `output` field is the trimmed stdout. -/
theorem execute_normal_exit_success (env : ExecEnv) (code input dir : String)
    (stdout stderr : String) (el timeout : Nat)
    (hw : env.writeError = none)
    (hp : env.procOutcome = ProcResult.ok stdout stderr el) :
    (∃ r, (executeJavaScript env code input dir).1 = Except.ok r ∧
      (r.success = true ↔ stderr = "") ∧ r.output = stdout.trim) ∧
    (∃ r, InContainerCodeExecutor.executeJavaScript timeout env code input dir =
        Except.ok r ∧
      (r.success = true ↔
        (stderr.length = 0 ∨ hasSubstrStr stderr "Error" = false)) ∧
      r.output = stdout.trim) := by
  obtain ⟨id, mk, we, co, po, rm⟩ := env
  have hw' : we = none := hw
  have hp' : po = ProcResult.ok stdout stderr el := hp
  subst hw'
  subst hp'
  constructor
  · refine ⟨_, rfl, ?_, rfl⟩
    simp [executeJavaScript]
  · refine ⟨_, rfl, ?_, rfl⟩
    simp [InContainerCodeExecutor.executeJavaScript, Bool.or_eq_true,
      beq_iff_eq, Bool.not_eq_true']

/-- Witness for C9 at a concrete normal exit with nonempty stderr that
does not contain `Error`. -/
theorem execute_normal_exit_success_witness :
    (∃ r, (executeJavaScript envC9 "f()" "" "temp/n").1 = Except.ok r ∧
      (r.success = true ↔ ("DeprecationWarning" : String) = "") ∧
      r.output = (" 7 \n" : String).trim) ∧
    (∃ r, InContainerCodeExecutor.executeJavaScript 5000 envC9 "f()" "" "temp/n" =
        Except.ok r ∧
      (r.success = true ↔
        (("DeprecationWarning" : String).length = 0 ∨
         hasSubstrStr "DeprecationWarning" "Error" = false)) ∧
      r.output = (" 7 \n" : String).trim) :=
  execute_normal_exit_success envC9 "f()" "" "temp/n" " 7 \n" "DeprecationWarning"
    3 5000 rfl rfl

/-- C10: on an empty test-case list, `runTestCases` returns an empty
results list and the summary `{total := 0, passed := 0, failed := 0,
allPassed := true}`; the submission controller's acceptance decision,
which is exactly `summary.allPassed`, therefore accepts such a run. -/
theorem runTestCases_empty (exec : Nat → String → ExecutionResult) :
    runTestCases exec [] =
      ([], { total := 0, passed := 0, failed := 0, allPassed := true }) ∧
    submitAccepted (runTestCases exec []).2 = true :=
  ⟨rfl, rfl⟩
